import Mathlib

/-!
Shallow embedding of `tools/github-issues/issue_wizard.py`: the label
registry (JSON loading and name classification) and the interactive
issue wizard (title capture, single/multi select over categories,
confirmation, body-file lifecycle).  Console input is modelled as a
list of lines; each blocking read consumes the next line.  Python
string primitives (`strip`, `lower`, `startswith`, `in`, `int(...)`,
`split(",")`) are modelled by structurally recursive functions over
the character list of a `String`.
-/

/-- Model of Python `str.strip()` on a character list: drop leading and
trailing whitespace. -/
def stripChars (cs : List Char) : List Char :=
  ((cs.dropWhile Char.isWhitespace).reverse.dropWhile Char.isWhitespace).reverse

/-- Model of Python `str.strip()`. -/
def pyStrip (s : String) : String :=
  String.mk (stripChars s.data)

/-- Model of Python `str.lower()` (ASCII case mapping). -/
def pyLower (s : String) : String :=
  String.mk (s.data.map Char.toLower)

/-- Model of Python `s.startswith(p)`. -/
def pyStartsWith (s p : String) : Bool :=
  p.data.isPrefixOf s.data

/-- Helper for substring containment: does `sub` occur as a prefix of
some suffix of the list? -/
def containsAux (sub : List Char) : List Char → Bool
  | [] => sub.isEmpty
  | c :: rest => sub.isPrefixOf (c :: rest) || containsAux sub rest

/-- Model of Python `sub in hay` on strings: substring containment. -/
def pyContains (hay sub : String) : Bool :=
  containsAux sub.data hay.data

/-- Digit tail of Python `int(...)`: after the first digit, a single
underscore may separate digits; anything else fails. -/
def pyDigitsAux : List Char → Nat → Option Nat
  | [], acc => some acc
  | '_' :: c :: rest, acc =>
      if c.isDigit then pyDigitsAux rest (acc * 10 + (c.toNat - 48)) else none
  | ['_'], _ => none
  | c :: rest, acc =>
      if c.isDigit then pyDigitsAux rest (acc * 10 + (c.toNat - 48)) else none

/-- Unsigned digit part of Python `int(...)`: a non-empty digit
sequence, underscores allowed only between digits. -/
def pyIntCore : List Char → Option Nat
  | [] => none
  | c :: rest => if c.isDigit then pyDigitsAux rest (c.toNat - 48) else none

/-- Model of Python `int(s)` (ASCII digits): surrounding whitespace is
ignored, an optional sign precedes the digits; `none` models a raised
`ValueError`. -/
def pyInt? (s : String) : Option Int :=
  match stripChars s.data with
  | '+' :: rest => (pyIntCore rest).map Int.ofNat
  | '-' :: rest => (pyIntCore rest).map (fun n => -(Int.ofNat n))
  | cs => (pyIntCore cs).map Int.ofNat

/-- Split on commas, keeping empty segments, as Python `s.split(",")`
does for the (non-empty) inputs the wizard feeds it. -/
def splitOnCommaAux : List Char → List Char → List (List Char)
  | [], acc => [acc.reverse]
  | c :: rest, acc =>
      if c = ',' then acc.reverse :: splitOnCommaAux rest []
      else splitOnCommaAux rest (c :: acc)

/-- Model of Python `s.split(",")`. -/
def pySplitComma (s : String) : List String :=
  (splitOnCommaAux s.data []).map String.mk

example : pySplitComma "1,3" = ["1", "3"] := by decide
example : pyInt? " 12 " = some 12 := by decide
example : pyInt? "abc" = none := by decide
example : pyInt? "-3" = some (-3) := by decide
example : pyInt? "" = none := by decide
example : pyStrip "  y " = "y" := by decide
example : pyContains "P1-must" "-must" = true := by decide

/-- The `LabelCategory` enumeration of `issue_wizard.py`. -/
inductive LabelCategory where
  | TYPE
  | AREA
  | PRIORITY
  | SIZE
  | FLAG
deriving DecidableEq, Repr

/-- The `Label` dataclass: `name`, `color`, `description`, `category`. -/
structure Label where
  name : String
  color : String
  description : String
  category : LabelCategory
deriving DecidableEq, Repr

/-- The priority marker substrings of `LabelRegistry._classify_label`. -/
def priorityMarkers : List String :=
  ["-critical", "-must", "-should", "-nice"]

/-- The literal TYPE names of `LabelRegistry._classify_label`. -/
def typeNames : List String :=
  ["bug", "enhancement", "documentation", "architecture", "tech-debt"]

/-- The classification rule chain of `LabelRegistry._classify_label`,
which depends only on the record's `name` field: `lsp/` prefix, then
`size/` prefix, then `P` prefix plus a priority marker substring, then
the TYPE literal list, else `FLAG`. -/
def classifyName (name : String) : LabelCategory :=
  if pyStartsWith name "lsp/" then LabelCategory.AREA
  else if pyStartsWith name "size/" then LabelCategory.SIZE
  else if pyStartsWith name "P" && priorityMarkers.any (fun p => pyContains name p) then
    LabelCategory.PRIORITY
  else if typeNames.contains name then LabelCategory.TYPE
  else LabelCategory.FLAG

/-- `LabelRegistry._classify_label` applied to a record whose fields are
the strings the registry expects: the produced `Label` keeps the record's
fields and carries the category computed from the name alone. -/
def classifyRecord (name color description : String) : Label :=
  ⟨name, color, description, classifyName name⟩

/-- `LabelRegistry.get_by_category`: the sub-list of labels whose
category equals the argument, in list order. -/
def getByCategory (labels : List Label) (category : LabelCategory) : List Label :=
  labels.filter (fun l => decide (l.category = category))

example : classifyName "lsp/completion" = LabelCategory.AREA := by decide
example : classifyName "size/S" = LabelCategory.SIZE := by decide
example : classifyName "P1-must" = LabelCategory.PRIORITY := by decide
example : classifyName "bug" = LabelCategory.TYPE := by decide
example : classifyName "good-first-issue" = LabelCategory.FLAG := by decide
example : classifyName "Pizza" = LabelCategory.FLAG := by decide

/-- JSON values as produced by `json.load`; objects are key-value lists
in insertion order (later duplicates shadow earlier ones, as in a
Python dict built by the json module). -/
inductive JValue where
  | jnull
  | jbool (b : Bool)
  | jnum (n : Int)
  | jstr (s : String)
  | jarr (items : List JValue)
  | jobj (fields : List (String × JValue))

/-- Dict lookup `item[key]`: the value of the last binding of `key`
(later duplicate keys override earlier ones), `none` for a `KeyError`. -/
def dictLookup (fields : List (String × JValue)) (key : String) : Option JValue :=
  (fields.reverse.find? (fun f => f.1 == key)).map (fun f => f.2)

/-- A classified label as produced while loading; `color` and
`description` are looked up (a missing key raises) but the registry
never interprets their values, so only presence is recorded. -/
structure ClassifiedLabel where
  name : String
  category : LabelCategory
deriving DecidableEq, Repr

/-- `LabelRegistry._classify_label` on one JSON item.  `none` models an
uncaught Python exception: `item` not a dict or `item["name"]` missing
(`TypeError`/`KeyError`), `name` without `startswith` (`AttributeError`
on a non-string), or a missing `color`/`description` key. -/
def classifyItem (item : JValue) : Option ClassifiedLabel :=
  match item with
  | JValue.jobj fields =>
    match dictLookup fields "name" with
    | some (JValue.jstr name) =>
      match dictLookup fields "color", dictLookup fields "description" with
      | some _, some _ => some ⟨name, classifyName name⟩
      | _, _ => none
    | some _ => none
    | none => none
  | _ => none

/-- Python `for item in data`: a list iterates its items, a dict its
keys, a string its characters; other values raise `TypeError` (`none`). -/
def loadItems : JValue → Option (List JValue)
  | JValue.jarr items => some items
  | JValue.jobj fields => some (fields.map (fun f => JValue.jstr f.1))
  | JValue.jstr s => some (s.data.map (fun c => JValue.jstr (String.mk [c])))
  | _ => none

/-- The loop body of `LabelRegistry._load_labels`: classify items in
order, aborting on the first item that raises. -/
def classifyAll : List JValue → Option (List ClassifiedLabel)
  | [] => some []
  | item :: rest =>
    match classifyItem item with
    | none => none
    | some l => (classifyAll rest).map (fun ls => l :: ls)

/-- What `open` plus `json.load` can yield for the source path: the
file is missing (`FileNotFoundError`), its text is not parseable JSON
(`json.JSONDecodeError`), or a parsed JSON value. -/
inductive SourceContent where
  | missing
  | invalidJson
  | parsed (v : JValue)

/-- Outcome of `LabelRegistry._load_labels`: a loaded label list, one
of the two handled fatal exits (each `print`ing its message and calling
`sys.exit(1)`), or an uncaught Python exception. -/
inductive LoadOutcome where
  | ok (labels : List ClassifiedLabel)
  | exitSourceNotFound (msg : String)
  | exitSourceMalformed (msg : String)
  | uncaught

/-- Does the outcome report the malformed-source error kind? -/
def LoadOutcome.isMalformedExit : LoadOutcome → Bool
  | LoadOutcome.exitSourceMalformed _ => true
  | _ => false

/-- Does the outcome report the source-not-found error kind? -/
def LoadOutcome.isNotFoundExit : LoadOutcome → Bool
  | LoadOutcome.exitSourceNotFound _ => true
  | _ => false

/-- `LabelRegistry._load_labels`: only `FileNotFoundError` and
`json.JSONDecodeError` are caught and turned into the two fatal exits;
everything else propagates as an uncaught exception. -/
def loadLabels (jsonPath : String) : SourceContent → LoadOutcome
  | SourceContent.missing =>
      LoadOutcome.exitSourceNotFound ("Error: Labels file not found at " ++ jsonPath)
  | SourceContent.invalidJson =>
      LoadOutcome.exitSourceMalformed ("Error: Invalid JSON in " ++ jsonPath)
  | SourceContent.parsed v =>
    match loadItems v with
    | none => LoadOutcome.uncaught
    | some items =>
      match classifyAll items with
      | none => LoadOutcome.uncaught
      | some ls => LoadOutcome.ok ls

/-- The title loop of `IssueWizard.run`: read lines until a stripped
line is non-empty; `none` when the (finite) input trace runs out first. -/
def titleLoop : List String → Option (String × List String)
  | [] => none
  | line :: rest =>
    if pyStrip line = "" then titleLoop rest else some (pyStrip line, rest)

/-- `IssueWizard._select_single` over one category's options: read a
line, parse it with `int(...)`; a parse failure or an out-of-range
index re-prompts on the remaining input with the selection unchanged; a
valid index appends the chosen option's name and returns the remaining
input.  `none` when the finite input trace is exhausted before a valid
choice. -/
def selectSingle (options : List Label) (selected : List String) :
    List String → Option (List String × List String)
  | [] => none
  | line :: rest =>
    match pyInt? line with
    | none => selectSingle options selected rest
    | some choice =>
      if h : 1 ≤ choice ∧ choice ≤ (options.length : Int) then
        some (selected ++ [(options.get ⟨(choice - 1).toNat, by omega⟩).name], rest)
      else
        selectSingle options selected rest

/-- The index loop of `IssueWizard._select_multiple`: collect the names
of in-range indices in the order listed, clearing the `valid` flag on
any out-of-range index. -/
def resolveLoop (options : List Label) :
    List Int → List String → Bool → List String × Bool
  | [], temp, valid => (temp, valid)
  | idx :: rest, temp, valid =>
    if h : 1 ≤ idx ∧ idx ≤ (options.length : Int) then
      resolveLoop options rest
        (temp ++ [(options.get ⟨(idx - 1).toNat, by omega⟩).name]) valid
    else
      resolveLoop options rest temp false

/-- The token parse of `IssueWizard._select_multiple`:
`[int(c.strip()) for c in choices.split(",")]`; `none` models the
`ValueError` raised by the first unparseable token. -/
def parseIndices (choices : String) : Option (List Int) :=
  (pySplitComma choices).mapM (fun c => pyInt? (pyStrip c))

/-- `IssueWizard._select_multiple`: an empty stripped line ends the
step with no additions; otherwise the comma-separated tokens must all
parse and all be in range, in which case the resolved names are
appended in listed order; any failure rejects the whole line and
re-prompts on the remaining input. -/
def selectMultiple (options : List Label) (selected : List String) :
    List String → Option (List String × List String)
  | [] => none
  | line :: rest =>
    if pyStrip line = "" then some (selected, rest)
    else
      match parseIndices (pyStrip line) with
      | none => selectMultiple options selected rest
      | some indices =>
        let res := resolveLoop options indices [] true
        if res.2 then some (selected ++ res.1, rest)
        else selectMultiple options selected rest

/-- Modelled on the specification's wording for multi-select
acceptance: the listed indices are accepted only if every one lies in
`[1, n]`, and then resolve to the names of the corresponding options in
the order the user listed them. -/
def resolveAllSpec (options : List Label) : List Int → Option (List String)
  | [] => some []
  | k :: ks =>
    if 1 ≤ k ∧ k ≤ (options.length : Int) then
      match options.get? (k - 1).toNat with
      | some l => (resolveAllSpec options ks).map (fun ns => l.name :: ns)
      | none => none
    else none

/-- `IssueWizard._confirm`: one line, affirmative iff its lowercased
text starts with `y`; no strip is applied. -/
def pyConfirm (line : String) : Bool :=
  pyStartsWith (pyLower line) "y"

/-- The confirmation predicate as the specification words it: strip the
line, lowercase it, and test for the `y` prefix. -/
def confirmSpecTrimmed (line : String) : Bool :=
  pyStartsWith (pyLower (pyStrip line)) "y"

/-- The label-selection portion of `IssueWizard.run` (steps 1-6): title
capture, single-select over TYPE, multi-select over AREA, single-select
over PRIORITY and SIZE, then a confirmation gating the FLAG
multi-select.  Returns the title, the accumulated `selected_labels`
(started empty by `__init__`), and the unconsumed input. -/
def wizardRun (registry : List Label) (inputs : List String) :
    Option (String × List String × List String) :=
  match titleLoop inputs with
  | none => none
  | some (t, r0) =>
    match selectSingle (getByCategory registry LabelCategory.TYPE) [] r0 with
    | none => none
    | some (s1, r1) =>
      match selectMultiple (getByCategory registry LabelCategory.AREA) s1 r1 with
      | none => none
      | some (s2, r2) =>
        match selectSingle (getByCategory registry LabelCategory.PRIORITY) s2 r2 with
        | none => none
        | some (s3, r3) =>
          match selectSingle (getByCategory registry LabelCategory.SIZE) s3 r3 with
          | none => none
          | some (s4, r4) =>
            match r4 with
            | [] => none
            | confirmLine :: r5 =>
              if pyConfirm confirmLine then
                match selectMultiple (getByCategory registry LabelCategory.FLAG) s4 r5 with
                | none => none
                | some (s5, r6) => some (t, s5, r6)
              else some (t, s4, r5)

/-- Result of the external editor invocation in
`IssueWizard._create_body`: normal exit, `FileNotFoundError`, or
`subprocess.CalledProcessError` with the editor's exit code. -/
inductive EditorResult where
  | ok
  | notFound
  | exitNonzero (code : Int)
deriving DecidableEq, Repr

/-- Exit status of the issue-tracker client invocation in
`IssueWizard._submit` (the spec treats the client as a black box
returning success or failure). -/
inductive GhResult where
  | ok
  | nonzero
deriving DecidableEq, Repr

/-- Observable effects of `_create_body` followed by `_submit`:
`tempCreated` — the `NamedTemporaryFile` was written; `removalAttempted`
— an `os.unlink(self.body_file)` guarded by `except OSError: pass` was
reached; `fatalExit` — `sys.exit(1)` was called; `submitted` — the
issue-tracker client ran and succeeded. -/
structure RunOutcome where
  tempCreated : Bool
  removalAttempted : Bool
  fatalExit : Bool
  submitted : Bool
deriving DecidableEq, Repr

/-- `IssueWizard._create_body` and `IssueWizard._submit` composed: the
temp body file is created first; an editor failure (either kind)
unlinks it and exits fatally; otherwise the final confirmation either
cancels (unlink), or submits — unlinking on success, and merely
reporting failure (no unlink) when the client returns non-zero. -/
def bodyAndSubmit (editor : EditorResult) (confirmLine : String) (gh : GhResult) :
    RunOutcome :=
  match editor with
  | EditorResult.notFound => ⟨true, true, true, false⟩
  | EditorResult.exitNonzero _ => ⟨true, true, true, false⟩
  | EditorResult.ok =>
    if pyConfirm confirmLine then
      match gh with
      | GhResult.ok => ⟨true, true, false, true⟩
      | GhResult.nonzero => ⟨true, false, false, false⟩
    else ⟨true, true, false, false⟩

/-- The five-label fixture of `test_issue_wizard.py`, classified as the
registry constructor does. -/
def sampleLabels : List Label :=
  [classifyRecord "bug" "d73a49" "Something isn't working",
   classifyRecord "lsp/completion" "c2e0c6" "Completion features",
   classifyRecord "P1-must" "d93f0b" "Must fix",
   classifyRecord "size/S" "bfd4f2" "Small",
   classifyRecord "good-first-issue" "7057ff" "Good for newcomers"]

/-- The order-preservation example labels of the specification:
`[A(area), B(flag), C(area)]` in source order. -/
def orderDemoLabels : List Label :=
  [⟨"A", "", "", LabelCategory.AREA⟩,
   ⟨"B", "", "", LabelCategory.FLAG⟩,
   ⟨"C", "", "", LabelCategory.AREA⟩]

example :
    wizardRun sampleLabels ["My issue", "1", "", "1", "1", "n"] =
      some ("My issue", ["bug", "P1-must", "size/S"], []) := by decide

example :
    selectMultiple orderDemoLabels [] ["1,9", "1,2"] = some (["A", "B"], []) := by
  decide

/-- A one-character list is a prefix of `l` exactly when `l` starts
with that character. -/
lemma isPrefixOf_singleton_iff (c : Char) (l : List Char) :
    List.isPrefixOf [c] l = true ↔ l.head? = some c := by
  cases l with
  | nil => simp [List.isPrefixOf]
  | cons d ds =>
    show (c == d && List.isPrefixOf ([] : List Char) ds) = true ↔ some d = some c
    simp only [List.isPrefixOf, Bool.and_true, beq_iff_eq, Option.some.injEq]
    exact eq_comm

/-- Claim C1: classification evaluates the rules in fixed priority
order with first-match-wins short-circuiting — `lsp/` prefix yields
AREA; otherwise `size/` prefix yields SIZE; otherwise a `P` prefix with
a priority marker substring yields PRIORITY; otherwise a TYPE literal
yields TYPE; otherwise FLAG — and in particular `P1-must` yields
PRIORITY. -/
theorem c1_classification_rules (name : String) :
    (pyStartsWith name "lsp/" = true → classifyName name = LabelCategory.AREA)
    ∧ (pyStartsWith name "lsp/" = false → pyStartsWith name "size/" = true →
        classifyName name = LabelCategory.SIZE)
    ∧ (pyStartsWith name "lsp/" = false → pyStartsWith name "size/" = false →
        pyStartsWith name "P" = true →
        priorityMarkers.any (fun p => pyContains name p) = true →
        classifyName name = LabelCategory.PRIORITY)
    ∧ (pyStartsWith name "lsp/" = false → pyStartsWith name "size/" = false →
        (pyStartsWith name "P" && priorityMarkers.any (fun p => pyContains name p)) = false →
        typeNames.contains name = true → classifyName name = LabelCategory.TYPE)
    ∧ (pyStartsWith name "lsp/" = false → pyStartsWith name "size/" = false →
        (pyStartsWith name "P" && priorityMarkers.any (fun p => pyContains name p)) = false →
        typeNames.contains name = false → classifyName name = LabelCategory.FLAG)
    ∧ classifyName "P1-must" = LabelCategory.PRIORITY := by
  refine ⟨?_, ?_, ?_, ?_, ?_, by decide⟩
  · intro h1
    simp [classifyName, h1]
  · intro h1 h2
    simp [classifyName, h1, h2]
  · intro h1 h2 h3 h4
    simp [classifyName, h1, h2, h3, h4]
  · intro h1 h2 h3 h4
    have h4m : name ∈ typeNames := by simpa using h4
    simp [classifyName, h1, h2, h3, h4m]
  · intro h1 h2 h3 h4
    have h4m : name ∉ typeNames := by simpa using h4
    simp [classifyName, h1, h2, h3, h4m]

/-- Witness for C1 at the concrete name `lsp/hover`. -/
theorem c1_witness :
    pyStartsWith "lsp/hover" "lsp/" = true
    ∧ classifyName "lsp/hover" = LabelCategory.AREA :=
  ⟨by decide, (c1_classification_rules "lsp/hover").1 (by decide)⟩

/-- Claim C2 as stated is false: `_confirm` lowercases the raw input
but never strips it, so the input `" y"` — affirmative under the
claimed trim-then-lowercase rule — is negative in the code. -/
theorem c2_counterexample :
    pyConfirm " y" = false ∧ confirmSpecTrimmed " y" = true := by decide

/-- Claim C2 amended: the confirmation of a single input line is
affirmative iff the lowercased (untrimmed) input starts with the
character `y`; every other input, including the empty string, is
negative. -/
theorem c2_confirm_amended (line : String) :
    pyConfirm line = true ↔ (pyLower line).data.head? = some 'y' := by
  have h : pyConfirm line = List.isPrefixOf ['y'] (pyLower line).data := rfl
  rw [h, isPrefixOf_singleton_iff]

/-- Claim C5: `get_by_category` returns exactly the sub-sequence of the
registry's labels whose category equals the argument, in registry
order, and the empty list when none match; on the spec's example
`[A(area), B(flag), C(area)]` it returns `[A, C]` for AREA. -/
theorem c5_get_by_category (labels : List Label) (c : LabelCategory) :
    (∀ l ∈ getByCategory labels c, l.category = c)
    ∧ List.Sublist (getByCategory labels c) labels
    ∧ (∀ l ∈ labels, l.category = c → l ∈ getByCategory labels c)
    ∧ ((∀ l ∈ labels, l.category ≠ c) → getByCategory labels c = [])
    ∧ getByCategory orderDemoLabels LabelCategory.AREA =
        [⟨"A", "", "", LabelCategory.AREA⟩, ⟨"C", "", "", LabelCategory.AREA⟩] := by
  refine ⟨?_, ?_, ?_, ?_, by decide⟩
  · intro l hl
    have hm := List.mem_filter.mp hl
    simpa using hm.2
  · exact List.filter_sublist labels
  · intro l hl hc
    exact List.mem_filter.mpr ⟨hl, by simpa using hc⟩
  · intro h
    refine List.filter_eq_nil_iff.mpr ?_
    intro a ha
    simpa using h a ha

/-- Witness for C5: no label of the example registry has category
SIZE, and the query returns the empty list there. -/
theorem c5_witness :
    (∀ l ∈ orderDemoLabels, l.category ≠ LabelCategory.SIZE)
    ∧ getByCategory orderDemoLabels LabelCategory.SIZE = [] :=
  ⟨by decide,
    (c5_get_by_category orderDemoLabels LabelCategory.SIZE).2.2.2.1 (by decide)⟩

/-- Claim C4: a single-select input line that fails to parse as an
integer, or parses outside `[1, n]`, makes the step re-prompt on the
remaining input with the selection unchanged; a valid index `k` appends
exactly the name of the `k`-th option and advances. -/
theorem c4_select_single_step (options : List Label) (selected rest : List String)
    (line : String) :
    (pyInt? line = none →
      selectSingle options selected (line :: rest) = selectSingle options selected rest)
    ∧ (∀ k, pyInt? line = some k → (k < 1 ∨ (options.length : Int) < k) →
        selectSingle options selected (line :: rest) = selectSingle options selected rest)
    ∧ (∀ k l, pyInt? line = some k → 1 ≤ k → k ≤ (options.length : Int) →
        options.get? (k - 1).toNat = some l →
        selectSingle options selected (line :: rest) = some (selected ++ [l.name], rest)) := by
  refine ⟨?_, ?_, ?_⟩
  · intro h
    simp only [selectSingle]
    rw [h]
  · intro k hk hout
    simp only [selectSingle]
    split
    · rfl
    · rename_i choice heq
      have hkc : choice = k := by
        rw [hk] at heq
        exact (Option.some.inj heq).symm
      subst hkc
      rw [dif_neg (by omega)]
  · intro k l hk h1 h2 hget
    simp only [selectSingle]
    split
    · rename_i heq
      rw [hk] at heq
      cases heq
    · rename_i choice heq
      have hkc : choice = k := by
        rw [hk] at heq
        exact (Option.some.inj heq).symm
      subst hkc
      rw [dif_pos ⟨h1, h2⟩]
      have hlt : (choice - 1).toNat < options.length := by omega
      have hg : options.get ⟨(choice - 1).toNat, hlt⟩ = l := by
        have he := List.get?_eq_get (l := options) hlt
        rw [he] at hget
        exact Option.some.inj hget
      rw [hg]

/-- Witness for C4 at the 3-option list, input line `2`. -/
theorem c4_witness :
    pyInt? "2" = some 2
    ∧ selectSingle orderDemoLabels [] ["2"] = some (["B"], []) :=
  ⟨by decide,
    (c4_select_single_step orderDemoLabels [] [] "2").2.2 2
      ⟨"B", "", "", LabelCategory.FLAG⟩ (by decide) (by decide) (by decide) (by decide)⟩

/-- Once the `valid` flag is false it stays false for the rest of the
index loop. -/
lemma resolveLoop_false (options : List Label) :
    ∀ (indices : List Int) (temp : List String),
      (resolveLoop options indices temp false).2 = false := by
  intro indices
  induction indices with
  | nil => intro temp; rfl
  | cons k ks ih =>
    intro temp
    simp only [resolveLoop]
    by_cases h : 1 ≤ k ∧ k ≤ (options.length : Int)
    · rw [dif_pos h]
      exact ih _
    · rw [dif_neg h]
      exact ih _

/-- Any out-of-range index among the parsed indices clears the `valid`
flag of the index loop. -/
lemma resolveLoop_out_of_range (options : List Label) :
    ∀ (indices : List Int) (temp : List String) (valid : Bool) (k : Int),
      k ∈ indices → (k < 1 ∨ (options.length : Int) < k) →
      (resolveLoop options indices temp valid).2 = false := by
  intro indices
  induction indices with
  | nil =>
    intro temp valid k hk
    cases hk
  | cons j js ih =>
    intro temp valid k hk hout
    simp only [resolveLoop]
    rcases List.mem_cons.mp hk with rfl | hmem
    · rw [dif_neg (by omega)]
      exact resolveLoop_false options js _
    · by_cases h : 1 ≤ j ∧ j ≤ (options.length : Int)
      · rw [dif_pos h]
        exact ih _ _ k hmem hout
      · rw [dif_neg h]
        exact ih _ _ k hmem hout

/-- When every index resolves, the index loop returns exactly the
resolved names appended to its accumulator, with the `valid` flag
still set. -/
lemma resolveLoop_of_spec (options : List Label) :
    ∀ (indices : List Int) (names : List String) (temp : List String),
      resolveAllSpec options indices = some names →
      resolveLoop options indices temp true = (temp ++ names, true) := by
  intro indices
  induction indices with
  | nil =>
    intro names temp h
    simp only [resolveAllSpec, Option.some.injEq] at h
    subst h
    simp [resolveLoop]
  | cons k ks ih =>
    intro names temp h
    simp only [resolveAllSpec] at h
    by_cases hr : 1 ≤ k ∧ k ≤ (options.length : Int)
    · rw [if_pos hr] at h
      cases hget : options.get? (k - 1).toNat with
      | none =>
        rw [hget] at h
        cases h
      | some l =>
        rw [hget] at h
        cases hrest : resolveAllSpec options ks with
        | none =>
          rw [hrest] at h
          cases h
        | some ns =>
          rw [hrest] at h
          simp only [Option.map_some', Option.some.injEq] at h
          subst h
          simp only [resolveLoop]
          rw [dif_pos hr]
          have hlt : (k - 1).toNat < options.length := by omega
          have hg : options.get ⟨(k - 1).toNat, hlt⟩ = l := by
            have he := List.get?_eq_get (l := options) hlt
            rw [he] at hget
            exact Option.some.inj hget
          rw [ih ns _ hrest, hg]
          simp
    · rw [if_neg hr] at h
      cases h

/-- Claim C3: in a multi-select step, an empty stripped line ends the
step with zero selections and the selection unchanged; a line whose
comma-separated tokens do not all parse as integers re-prompts with
nothing appended; a line with any parsed index out of `[1, n]` is
rejected in full (nothing appended, not even in-range tokens) and
re-prompts; and when all tokens parse in range, the resolved names are
appended in the order the user listed the indices. -/
theorem c3_select_multiple_step (options : List Label) (selected rest : List String)
    (line : String) :
    (pyStrip line = "" →
      selectMultiple options selected (line :: rest) = some (selected, rest))
    ∧ (pyStrip line ≠ "" → parseIndices (pyStrip line) = none →
        selectMultiple options selected (line :: rest) = selectMultiple options selected rest)
    ∧ (∀ indices k, pyStrip line ≠ "" → parseIndices (pyStrip line) = some indices →
        k ∈ indices → (k < 1 ∨ (options.length : Int) < k) →
        selectMultiple options selected (line :: rest) = selectMultiple options selected rest)
    ∧ (∀ indices names, pyStrip line ≠ "" → parseIndices (pyStrip line) = some indices →
        resolveAllSpec options indices = some names →
        selectMultiple options selected (line :: rest) = some (selected ++ names, rest)) := by
  refine ⟨?_, ?_, ?_, ?_⟩
  · intro h
    simp only [selectMultiple]
    rw [if_pos h]
  · intro h hp
    simp only [selectMultiple]
    rw [if_neg h, hp]
  · intro indices k h hp hk hout
    simp only [selectMultiple]
    rw [if_neg h, hp]
    have hv := resolveLoop_out_of_range options indices [] true k hk hout
    simp [hv]
  · intro indices names h hp hspec
    simp only [selectMultiple]
    rw [if_neg h, hp]
    have hv := resolveLoop_of_spec options indices names [] hspec
    simp [hv]

/-- Witness for C3: input `1,3` over the 3-option list resolves options
1 and 3 in that order. -/
theorem c3_witness :
    parseIndices (pyStrip "1,3") = some [1, 3]
    ∧ resolveAllSpec orderDemoLabels [1, 3] = some ["A", "C"]
    ∧ selectMultiple orderDemoLabels [] ["1,3"] = some (["A", "C"], []) :=
  ⟨by decide, by decide,
    (c3_select_multiple_step orderDemoLabels [] [] "1,3").2.2.2 [1, 3] ["A", "C"]
      (by decide) (by decide) (by decide)⟩

/-- Claim C10: a single-select step over an empty option list never
accepts: every input line re-prompts and no finite input trace can make
the step append a name or advance. -/
theorem c10_single_select_empty_options (selected : List String) (inputs : List String)
    (line : String) (rest : List String) :
    selectSingle [] selected inputs = none
    ∧ selectSingle [] selected (line :: rest) = selectSingle [] selected rest := by
  constructor
  · induction inputs with
    | nil => rfl
    | cons l ls ih =>
      simp only [selectSingle]
      split
      · exact ih
      · rename_i choice heq
        rw [dif_neg (by
          intro hc
          obtain ⟨hc1, hc2⟩ := hc
          simp only [List.length_nil, Nat.cast_zero] at hc2
          omega)]
        exact ih
  · simp only [selectSingle]
    split
    · rfl
    · rename_i choice heq
      rw [dif_neg (by
        intro hc
        obtain ⟨hc1, hc2⟩ := hc
        simp only [List.length_nil, Nat.cast_zero] at hc2
        omega)]

/-- Claim C6 as stated is false at the source content `42`: the text is
valid JSON but not a sequence of conforming records, yet loading does
not report the malformed-source error kind — only a JSON parse failure
is caught; the wrong shape escapes as an uncaught exception. -/
theorem c6_counterexample :
    (loadLabels "labels.json" (SourceContent.parsed (JValue.jnum 42))).isMalformedExit = false
    ∧ loadLabels "labels.json" (SourceContent.parsed (JValue.jnum 42)) = LoadOutcome.uncaught :=
  ⟨rfl, rfl⟩

/-- Claim C6 amended: registry construction exits fatally with
`SourceNotFound` exactly when the source file is missing and with
`SourceMalformed` exactly when its text is not parseable JSON, each
carrying a message naming the source path and producing no labels;
content that parses as JSON but is not a sequence of conforming records
terminates with an uncaught exception instead of a `SourceMalformed`
report. -/
theorem c6_load_amended (p : String) (c : SourceContent) :
    ((loadLabels p c).isNotFoundExit = true ↔ c = SourceContent.missing)
    ∧ ((loadLabels p c).isMalformedExit = true ↔ c = SourceContent.invalidJson)
    ∧ loadLabels p SourceContent.missing =
        LoadOutcome.exitSourceNotFound ("Error: Labels file not found at " ++ p)
    ∧ loadLabels p SourceContent.invalidJson =
        LoadOutcome.exitSourceMalformed ("Error: Invalid JSON in " ++ p) := by
  refine ⟨?_, ?_, rfl, rfl⟩
  · cases c with
    | missing => simp [loadLabels, LoadOutcome.isNotFoundExit]
    | invalidJson => simp [loadLabels, LoadOutcome.isNotFoundExit]
    | parsed v =>
      simp only [loadLabels]
      cases hv : loadItems v with
      | none => simp [LoadOutcome.isNotFoundExit]
      | some items =>
        cases hi : classifyAll items with
        | none => simp [hi, LoadOutcome.isNotFoundExit]
        | some ls => simp [hi, LoadOutcome.isNotFoundExit]
  · cases c with
    | missing => simp [loadLabels, LoadOutcome.isMalformedExit]
    | invalidJson => simp [loadLabels, LoadOutcome.isMalformedExit]
    | parsed v =>
      simp only [loadLabels]
      cases hv : loadItems v with
      | none => simp [LoadOutcome.isMalformedExit]
      | some items =>
        cases hi : classifyAll items with
        | none => simp [hi, LoadOutcome.isMalformedExit]
        | some ls => simp [hi, LoadOutcome.isMalformedExit]

/-- Claim C7: the temp body file is created before the editor is
invoked; it is removed on successful submission, on cancellation at the
final confirmation, and on either editor failure; and every fatal exit
of this stage attempts best-effort removal before terminating. -/
theorem c7_temp_file_lifecycle (editor : EditorResult) (confirmLine : String) (gh : GhResult) :
    (bodyAndSubmit editor confirmLine gh).tempCreated = true
    ∧ ((bodyAndSubmit editor confirmLine gh).submitted = true →
        (bodyAndSubmit editor confirmLine gh).removalAttempted = true)
    ∧ (editor = EditorResult.ok → pyConfirm confirmLine = false →
        (bodyAndSubmit editor confirmLine gh).removalAttempted = true)
    ∧ (editor = EditorResult.notFound →
        (bodyAndSubmit editor confirmLine gh).removalAttempted = true
        ∧ (bodyAndSubmit editor confirmLine gh).fatalExit = true)
    ∧ (∀ code, editor = EditorResult.exitNonzero code →
        (bodyAndSubmit editor confirmLine gh).removalAttempted = true
        ∧ (bodyAndSubmit editor confirmLine gh).fatalExit = true)
    ∧ ((bodyAndSubmit editor confirmLine gh).fatalExit = true →
        (bodyAndSubmit editor confirmLine gh).removalAttempted = true) := by
  cases editor <;> cases gh <;>
    by_cases hc : pyConfirm confirmLine = true <;>
      simp [bodyAndSubmit, hc]

/-- Witness for C7: the editor succeeds, the user answers `n` at the
final confirmation, and removal of the temp file is attempted. -/
theorem c7_witness :
    pyConfirm "n" = false
    ∧ (bodyAndSubmit EditorResult.ok "n" GhResult.ok).removalAttempted = true :=
  ⟨by decide,
    (c7_temp_file_lifecycle EditorResult.ok "n" GhResult.ok).2.2.1 rfl (by decide)⟩

/-- Claim C9: classification is a total, deterministic function of the
record's `name` field alone — two records with equal names classify
identically whatever their `color` and `description` values are, and
every name receives one of the five categories. -/
theorem c9_classification_name_only (fields1 fields2 : List (String × JValue))
    (n : String) (l1 l2 : ClassifiedLabel)
    (hn1 : dictLookup fields1 "name" = some (JValue.jstr n))
    (hn2 : dictLookup fields2 "name" = some (JValue.jstr n))
    (h1 : classifyItem (JValue.jobj fields1) = some l1)
    (h2 : classifyItem (JValue.jobj fields2) = some l2) :
    l1.category = l2.category
    ∧ l1.category = classifyName n
    ∧ (classifyName n = LabelCategory.TYPE ∨ classifyName n = LabelCategory.AREA
       ∨ classifyName n = LabelCategory.PRIORITY ∨ classifyName n = LabelCategory.SIZE
       ∨ classifyName n = LabelCategory.FLAG) := by
  have e1 : l1 = ⟨n, classifyName n⟩ := by
    simp only [classifyItem] at h1
    rw [hn1] at h1
    cases hc : dictLookup fields1 "color" with
    | none => rw [hc] at h1; cases h1
    | some cv =>
      cases hd : dictLookup fields1 "description" with
      | none => rw [hc, hd] at h1; cases h1
      | some dv =>
        rw [hc, hd] at h1
        exact (Option.some.inj h1).symm
  have e2 : l2 = ⟨n, classifyName n⟩ := by
    simp only [classifyItem] at h2
    rw [hn2] at h2
    cases hc : dictLookup fields2 "color" with
    | none => rw [hc] at h2; cases h2
    | some cv =>
      cases hd : dictLookup fields2 "description" with
      | none => rw [hc, hd] at h2; cases h2
      | some dv =>
        rw [hc, hd] at h2
        exact (Option.some.inj h2).symm
  subst e1
  subst e2
  refine ⟨rfl, rfl, ?_⟩
  cases hcat : classifyName n <;> simp

/-- Witness for C9: two records named `bug` whose colors and
descriptions differ in value and even in JSON type classify the same. -/
theorem c9_witness :
    (ClassifiedLabel.mk "bug" LabelCategory.TYPE).category =
      (ClassifiedLabel.mk "bug" LabelCategory.TYPE).category
    ∧ (ClassifiedLabel.mk "bug" LabelCategory.TYPE).category = classifyName "bug"
    ∧ (classifyName "bug" = LabelCategory.TYPE ∨ classifyName "bug" = LabelCategory.AREA
       ∨ classifyName "bug" = LabelCategory.PRIORITY
       ∨ classifyName "bug" = LabelCategory.SIZE
       ∨ classifyName "bug" = LabelCategory.FLAG) :=
  c9_classification_name_only
    [("name", JValue.jstr "bug"), ("color", JValue.jstr "d73a49"),
     ("description", JValue.jstr "Something isn't working")]
    [("name", JValue.jstr "bug"), ("color", JValue.jnum 7),
     ("description", JValue.jnull)]
    "bug" ⟨"bug", LabelCategory.TYPE⟩ ⟨"bug", LabelCategory.TYPE⟩
    (by rfl) (by rfl) (by rfl) (by rfl)

/-- Every name a single-select step adds comes from its option list:
the final selection is the prior selection plus names of options. -/
lemma selectSingle_mem (options : List Label) :
    ∀ (inputs selected sel rest : List String),
      selectSingle options selected inputs = some (sel, rest) →
      ∀ nm ∈ sel, nm ∈ selected ∨ ∃ l ∈ options, l.name = nm := by
  intro inputs
  induction inputs with
  | nil =>
    intro selected sel rest h
    cases h
  | cons line ls ih =>
    intro selected sel rest h nm hnm
    simp only [selectSingle] at h
    split at h
    · exact ih _ _ _ h nm hnm
    · rename_i choice heq
      by_cases hc : 1 ≤ choice ∧ choice ≤ (options.length : Int)
      · rw [dif_pos hc] at h
        simp only [Option.some.injEq, Prod.mk.injEq] at h
        obtain ⟨hsel, hrest⟩ := h
        subst hsel
        rcases List.mem_append.mp hnm with h1 | h2
        · exact Or.inl h1
        · right
          rw [List.mem_singleton] at h2
          subst h2
          exact ⟨_, List.get_mem options _ _, rfl⟩
      · rw [dif_neg hc] at h
        exact ih _ _ _ h nm hnm

/-- Every name the multi-select index loop accumulates beyond its
initial accumulator is the name of an option. -/
lemma resolveLoop_mem (options : List Label) :
    ∀ (indices : List Int) (temp : List String) (valid : Bool) (nm : String),
      nm ∈ (resolveLoop options indices temp valid).1 →
      nm ∈ temp ∨ ∃ l ∈ options, l.name = nm := by
  intro indices
  induction indices with
  | nil =>
    intro temp valid nm hnm
    exact Or.inl hnm
  | cons k ks ih =>
    intro temp valid nm hnm
    simp only [resolveLoop] at hnm
    by_cases hc : 1 ≤ k ∧ k ≤ (options.length : Int)
    · rw [dif_pos hc] at hnm
      rcases ih _ _ nm hnm with hin | hex
      · rcases List.mem_append.mp hin with h1 | h2
        · exact Or.inl h1
        · right
          rw [List.mem_singleton] at h2
          subst h2
          exact ⟨_, List.get_mem options _ _, rfl⟩
      · exact Or.inr hex
    · rw [dif_neg hc] at hnm
      exact ih _ _ nm hnm

/-- Every name a multi-select step adds comes from its option list. -/
lemma selectMultiple_mem (options : List Label) :
    ∀ (inputs selected sel rest : List String),
      selectMultiple options selected inputs = some (sel, rest) →
      ∀ nm ∈ sel, nm ∈ selected ∨ ∃ l ∈ options, l.name = nm := by
  intro inputs
  induction inputs with
  | nil =>
    intro selected sel rest h
    cases h
  | cons line ls ih =>
    intro selected sel rest h nm hnm
    simp only [selectMultiple] at h
    by_cases he : pyStrip line = ""
    · rw [if_pos he] at h
      simp only [Option.some.injEq, Prod.mk.injEq] at h
      obtain ⟨hsel, hrest⟩ := h
      subst hsel
      exact Or.inl hnm
    · rw [if_neg he] at h
      split at h
      · exact ih _ _ _ h nm hnm
      · rename_i indices heq
        cases hb : (resolveLoop options indices [] true).2 with
        | false =>
          simp only [hb] at h
          rw [if_neg (by decide)] at h
          exact ih _ _ _ h nm hnm
        | true =>
          simp only [hb] at h
          rw [if_pos trivial] at h
          simp only [Option.some.injEq, Prod.mk.injEq] at h
          obtain ⟨hsel, hrest⟩ := h
          subst hsel
          rcases List.mem_append.mp hnm with h1 | h2
          · exact Or.inl h1
          · rcases resolveLoop_mem options indices [] true nm h2 with hin | hex
            · cases hin
            · exact Or.inr hex

/-- Claim C8: throughout a wizard run, `selected_labels` never contains
a name absent from the registry — every appended name is the name of a
label obtained from the registry's option list for some category via a
validated index. -/
theorem c8_selected_labels_in_registry (registry : List Label) (inputs : List String)
    (t : String) (sel rest : List String)
    (h : wizardRun registry inputs = some (t, sel, rest)) :
    ∀ nm ∈ sel, ∃ l ∈ registry, l.name = nm := by
  have hsub : ∀ c : LabelCategory, ∀ l ∈ getByCategory registry c, l ∈ registry := by
    intro c l hl
    exact (List.mem_filter.mp hl).1
  simp only [wizardRun] at h
  split at h
  · cases h
  · rename_i t0 r0 heq0
    split at h
    · cases h
    · rename_i s1 r1 heq1
      have m1 : ∀ nm ∈ s1, ∃ l ∈ registry, l.name = nm := by
        intro nm hnm
        rcases selectSingle_mem (getByCategory registry LabelCategory.TYPE)
            r0 [] s1 r1 heq1 nm hnm with hin | ⟨l, hl, he⟩
        · cases hin
        · exact ⟨l, hsub _ l hl, he⟩
      split at h
      · cases h
      · rename_i s2 r2 heq2
        have m2 : ∀ nm ∈ s2, ∃ l ∈ registry, l.name = nm := by
          intro nm hnm
          rcases selectMultiple_mem (getByCategory registry LabelCategory.AREA)
              r1 s1 s2 r2 heq2 nm hnm with hin | ⟨l, hl, he⟩
          · exact m1 nm hin
          · exact ⟨l, hsub _ l hl, he⟩
        split at h
        · cases h
        · rename_i s3 r3 heq3
          have m3 : ∀ nm ∈ s3, ∃ l ∈ registry, l.name = nm := by
            intro nm hnm
            rcases selectSingle_mem (getByCategory registry LabelCategory.PRIORITY)
                r2 s2 s3 r3 heq3 nm hnm with hin | ⟨l, hl, he⟩
            · exact m2 nm hin
            · exact ⟨l, hsub _ l hl, he⟩
          split at h
          · cases h
          · rename_i s4 r4 heq4
            have m4 : ∀ nm ∈ s4, ∃ l ∈ registry, l.name = nm := by
              intro nm hnm
              rcases selectSingle_mem (getByCategory registry LabelCategory.SIZE)
                  r3 s3 s4 r4 heq4 nm hnm with hin | ⟨l, hl, he⟩
              · exact m3 nm hin
              · exact ⟨l, hsub _ l hl, he⟩
            split at h
            · cases h
            · rename_i confirmLine r5
              split at h
              · split at h
                · cases h
                · rename_i s5 r6 heq6
                  have m5 : ∀ nm ∈ s5, ∃ l ∈ registry, l.name = nm := by
                    intro nm hnm
                    rcases selectMultiple_mem (getByCategory registry LabelCategory.FLAG)
                        r5 s4 s5 r6 heq6 nm hnm with hin | ⟨l, hl, he⟩
                    · exact m4 nm hin
                    · exact ⟨l, hsub _ l hl, he⟩
                  simp only [Option.some.injEq, Prod.mk.injEq] at h
                  obtain ⟨ht, hsel, hrest⟩ := h
                  subst hsel
                  exact m5
              · simp only [Option.some.injEq, Prod.mk.injEq] at h
                obtain ⟨ht, hsel, hrest⟩ := h
                subst hsel
                exact m4

/-- Witness for C8: the test fixture registry with the concrete input
trace title, `1`, empty, `1`, `1`, `n` accepts and every selected name
is a registry label name. -/
theorem c8_witness :
    wizardRun sampleLabels ["My issue", "1", "", "1", "1", "n"] =
      some ("My issue", ["bug", "P1-must", "size/S"], [])
    ∧ ∀ nm ∈ ["bug", "P1-must", "size/S"], ∃ l ∈ sampleLabels, l.name = nm :=
  ⟨by decide,
    c8_selected_labels_in_registry sampleLabels ["My issue", "1", "", "1", "1", "n"]
      "My issue" ["bug", "P1-must", "size/S"] [] (by decide)⟩
